import Mathlib

/-!
Verification of the `UserService` business layer of the repository
(`src/examples/fastapi/services/user_service.py`) against its
specification.

The Python service is shallowly embedded: the repository interface
(`IUserRepository`, a Protocol) becomes a structure of abstract response
functions, and each `async` service method becomes a pure Lean function
returning the produced value (or the raised `ValueError`) together with
the ordered trace of repository-interface calls the method performed.
Python strings are Lean `String`s; Python `int` is Lean `Int` and the
floor division `//` is `Int.fdiv`.

The source uses Korean identifiers, which Lean's lexer rejects; they are
rendered with the spec's English vocabulary:
  사용자_생성 = create_user, 사용자_조회 = get_user,
  사용자_목록_조회 = list_users, 사용자_수정 = update_user,
  사용자_삭제 = delete_user, _이름_길이_검증 = validate_name_length,
  _이메일_형식_검증 = validate_email_format,
  _이름_중복_검증 = validate_name_unique; repository operations
  생성/조회/이름으로_조회/목록_조회/수정/삭제 =
  create/getById/getByName/list/update/delete; fields
  이름/이메일/활성화/생성일시 = name/email/active/created_at.
-/

namespace UserSpec

/-- Whitespace stripped by Python's `str.strip()` (the ASCII whitespace
class; `strip` also covers rarer Unicode spaces, which no claim uses). -/
def isPySpace (c : Char) : Bool :=
  c = ' ' || c = '\t' || c = '\n' || c = '\r' || c = '\x0b' || c = '\x0c'

/-- Python `str.strip()`: drop leading and trailing whitespace. -/
def pyStrip (s : String) : String :=
  ⟨((s.data.dropWhile isPySpace).reverse.dropWhile isPySpace).reverse⟩

/-- Python `str.lower()` on the alphabets the claims use (ASCII). -/
def pyLower (s : String) : String :=
  ⟨s.data.map Char.toLower⟩

/-- Modelled from the spec: the `User` domain entity
(`src/domain/user.py` is not part of the sources). Spec section 3: id
auto-assigned at creation, name, email, active flag, created-at
timestamp. `id` and `created_at` are absent (`none`) until the data
layer assigns them. -/
structure User where
  id : Option Int
  name : String
  email : String
  active : Bool
  created_at : Option Int
deriving DecidableEq, Repr

/-- Modelled from the spec: `UserCreateDTO`
(`src/dto/request/user.py` is not part of the sources). Spec section 6:
CreateRequest {name: string, email: string}. -/
structure UserCreateDTO where
  name : String
  email : String
deriving DecidableEq, Repr

/-- Modelled from the spec: `UserUpdateDTO`
(`src/dto/request/user.py` is not part of the sources). Spec section 6:
UpdateRequest {name?: string, email?: string}; an omitted field is
`none`. -/
structure UserUpdateDTO where
  name : Option String
  email : Option String
deriving DecidableEq, Repr

/-- Modelled from the spec: `UserResponse`
(`src/dto/response/user.py` is not part of the sources). Spec section 6:
list items are the users themselves, wrapped as response DTOs. -/
structure UserResponse where
  id : Option Int
  name : String
  email : String
  active : Bool
deriving DecidableEq, Repr

def UserResponse.from_entity (user : User) : UserResponse :=
  { id := user.id, name := user.name, email := user.email,
    active := user.active }

/-- The type `PaginatedResponse[UserResponse]`: the pagination envelope
{items, total, page, page_size, pages} of spec section 4.2. -/
structure PaginatedResponse where
  items : List UserResponse
  total : Int
  page : Int
  page_size : Int
  pages : Int
deriving DecidableEq, Repr

/-- The `ValueError`s raised by `UserService`, one constructor per
`raise` site, carrying the values interpolated into the message. -/
inductive ValueError where
  | nameTooShort : ValueError
  | nameTooLong : ValueError
  | invalidEmail (email : String) : ValueError
  | duplicateName (name : String) : ValueError
  | userNotFound (user_id : Int) : ValueError
  | invalidPage : ValueError
  | invalidPageSize : ValueError
deriving DecidableEq, Repr

/-- One call of the service on the repository interface, with its
arguments (for `create`/`update`, the entity the service passed in). -/
inductive RepoCall where
  | create (user : User)
  | getById (user_id : Int)
  | getByName (name : String)
  | list (page : Int) (page_size : Int)
  | update (user : User)
  | delete (user_id : Int)
deriving DecidableEq, Repr

/-- The `IUserRepository` Protocol of `user_service.py`: an abstract
repository, as a structure of response functions. Reads return the
record or `none`; `create`/`update` return the persisted entity;
`delete` returns the success boolean. -/
structure IUserRepository where
  create : User → User
  getById : Int → Option User
  getByName : String → Option User
  list : Int → Int → List User × Int
  update : User → User
  delete : Int → Bool

/-! ### The email pattern of `_이메일_형식_검증`

`pattern = r'^[a-zA-Z0-9._%+-]+@[a-zA-Z0-9.-]+\.[a-zA-Z]{2,}$'`

`Char.isAlpha`/`Char.isDigit` are exactly the ASCII classes
`[a-zA-Z]`/`[0-9]` of the pattern. A regex matches iff some split of the
input into its pieces matches, which the functions below decide by
trying every split point. -/

/-- The class `[a-zA-Z0-9._%+-]` (local part of the email). -/
def emailLocalChar (c : Char) : Bool :=
  c.isAlpha || c.isDigit || c = '.' || c = '_' || c = '%' || c = '+' || c = '-'

/-- The class `[a-zA-Z0-9.-]` (domain part of the email). -/
def emailDomainChar (c : Char) : Bool :=
  c.isAlpha || c.isDigit || c = '.' || c = '-'

/-- The piece `[a-zA-Z]{2,}` against a whole string. -/
def isTld (cs : List Char) : Bool :=
  2 ≤ cs.length && cs.all Char.isAlpha

/-- The piece `[a-zA-Z0-9.-]+\.[a-zA-Z]{2,}` against a whole string: some split
puts a nonempty domain before a literal `.` followed by the TLD. -/
def matchDomainTld (cs : List Char) : Bool :=
  (List.range cs.length).any fun i =>
    (!(cs.take i).isEmpty) && (cs.take i).all emailDomainChar &&
      match cs.drop i with
      | '.' :: tld => isTld tld
      | _ => false

/-- The whole pattern (without `$`'s trailing-newline allowance): some
split puts a nonempty local part before a literal `@` followed by
domain-dot-TLD. -/
def matchEmailCore (cs : List Char) : Bool :=
  (List.range cs.length).any fun i =>
    (!(cs.take i).isEmpty) && (cs.take i).all emailLocalChar &&
      match cs.drop i with
      | '@' :: rest => matchDomainTld rest
      | _ => false

/-- Python `re.match(pattern, s)` as a Boolean. `re.match` anchors at
the start; the pattern's `$` matches at the end of the string or just
before one trailing newline. -/
def reMatchEmail (s : String) : Bool :=
  matchEmailCore s.data ||
    (match s.data.getLast? with
     | some c => c = '\n' && matchEmailCore s.data.dropLast
     | none => false)

/-! ### `UserService`

Business-rule constants `최소_이름_길이 = 3`, `최대_이름_길이 = 50`. -/

def MIN_NAME_LENGTH : Nat := 3

def MAX_NAME_LENGTH : Nat := 50

/-- Source `UserService._이름_길이_검증`: length of the stripped name must lie
in `[최소_이름_길이, 최대_이름_길이]`; returns the raised `ValueError`
if any. -/
def validate_name_length (name : String) : Option ValueError :=
  let len := (pyStrip name).length
  if len < MIN_NAME_LENGTH then some .nameTooShort
  else if len > MAX_NAME_LENGTH then some .nameTooLong
  else none

/-- Source `UserService._이메일_형식_검증`: `re.match(pattern, 이메일)` must
succeed; returns the raised `ValueError` if any. -/
def validate_email_format (email : String) : Option ValueError :=
  if !reMatchEmail email then some (.invalidEmail email) else none

/-- Source `UserService._이름_중복_검증`: consult `repository.이름으로_조회`
with the given (raw) name and raise on a truthy result. Returns the
outcome and the repository call made. -/
def validate_name_unique (repo : IUserRepository) (name : String) :
    Option ValueError × List RepoCall :=
  match repo.getByName name with
  | some _ => (some (.duplicateName name), [.getByName name])
  | none => (none, [.getByName name])

/-- Source `UserService.사용자_생성`: validate name length, then email format,
then name uniqueness (with the raw DTO name), then build the entity with
stripped name, lowercased email and `활성화=True`, and persist it. -/
def create_user (repo : IUserRepository) (dto : UserCreateDTO) :
    Except ValueError User × List RepoCall :=
  match validate_name_length dto.name with
  | some e => (.error e, [])
  | none =>
    match validate_email_format dto.email with
    | some e => (.error e, [])
    | none =>
      match validate_name_unique repo dto.name with
      | (some e, t) => (.error e, t)
      | (none, t) =>
        let user : User :=
          { id := none, name := pyStrip dto.name, email := pyLower dto.email,
            active := true, created_at := none }
        (.ok (repo.create user), t ++ [.create user])

/-- Source `UserService.사용자_조회`: fetch by id; a falsy (absent) result
raises "not found". -/
def get_user (repo : IUserRepository) (user_id : Int) :
    Except ValueError User × List RepoCall :=
  match repo.getById user_id with
  | none => (.error (.userNotFound user_id), [.getById user_id])
  | some user => (.ok user, [.getById user_id])

/-- Source `UserService.사용자_목록_조회`: validate `페이지 ≥ 1` and
`1 ≤ 페이지_크기 ≤ 100`, query the repository, convert to response DTOs
and wrap in the envelope with
`pages = (total + 페이지_크기 - 1) // 페이지_크기`. -/
def list_users (repo : IUserRepository) (page : Int) (page_size : Int) :
    Except ValueError PaginatedResponse × List RepoCall :=
  if page < 1 then (.error .invalidPage, [])
  else if ¬ (1 ≤ page_size ∧ page_size ≤ 100) then (.error .invalidPageSize, [])
  else
    let qr := repo.list page page_size
    let items := qr.1.map UserResponse.from_entity
    (.ok { items := items, total := qr.2, page := page, page_size := page_size,
           pages := (qr.2 + page_size - 1).fdiv page_size },
     [.list page page_size])

/-- Python truthiness of an `Optional[str]`: `None` and `""` are falsy. -/
def truthyOptStr : Option String → Bool
  | none => false
  | some s => !(s = "")

/-- The name phase of `UserService.사용자_수정` (`if dto.이름:` block):
on a truthy DTO name, validate its length, consult uniqueness only when
it differs from the fetched record's current name, and set the record's
name to the stripped value. -/
def update_name_step (repo : IUserRepository) (user : User)
    (dtoName : Option String) : Except ValueError User × List RepoCall :=
  if truthyOptStr dtoName then
    let name := dtoName.getD ""
    match validate_name_length name with
    | some e => (.error e, [])
    | none =>
      if name ≠ user.name then
        match validate_name_unique repo name with
        | (some e, t) => (.error e, t)
        | (none, t) => (.ok { user with name := pyStrip name }, t)
      else (.ok { user with name := pyStrip name }, [])
  else (.ok user, [])

/-- The email phase of `UserService.사용자_수정` (`if dto.이메일:`
block): on a truthy DTO email, validate its format and set the record's
email to the lowercased value. -/
def update_email_step (user : User) (dtoEmail : Option String) :
    Except ValueError User :=
  if truthyOptStr dtoEmail then
    let email := dtoEmail.getD ""
    match validate_email_format email with
    | some e => .error e
    | none => .ok { user with email := pyLower email }
  else .ok user

/-- Source `UserService.사용자_수정`: re-fetch the record via `사용자_조회`
(raises "not found" if absent), run the name phase then the email phase,
and persist the mutated record via `repository.수정`. -/
def update_user (repo : IUserRepository) (user_id : Int)
    (dto : UserUpdateDTO) : Except ValueError User × List RepoCall :=
  match get_user repo user_id with
  | (.error e, t) => (.error e, t)
  | (.ok user, t0) =>
    match update_name_step repo user dto.name with
    | (.error e, t1) => (.error e, t0 ++ t1)
    | (.ok user1, t1) =>
      match update_email_step user1 dto.email with
      | .error e => (.error e, t0 ++ t1)
      | .ok user2 => (.ok (repo.update user2), t0 ++ t1 ++ [.update user2])

/-- Source `UserService.사용자_삭제`: confirm existence via `사용자_조회`
(raises "not found" if absent), then delegate the hard delete. -/
def delete_user (repo : IUserRepository) (user_id : Int) :
    Except ValueError Bool × List RepoCall :=
  match get_user repo user_id with
  | (.error e, t) => (.error e, t)
  | (.ok _, t) => (.ok (repo.delete user_id), t ++ [.delete user_id])

/-! ### Concrete fixtures for witnesses and counterexamples -/

/-- A stored user, as the data layer would return it. -/
def exAlice : User :=
  { id := some 1, name := "Alice", email := "alice@test.com", active := true,
    created_at := some 0 }

/-- A concrete repository: one stored user `exAlice` under id 1 and name
"Alice"; `create` assigns id 2; `update` persists in place; the listing
reports two records in total. -/
def exRepo : IUserRepository :=
  { create := fun u => { u with id := some 2 },
    getById := fun i => if i = 1 then some exAlice else none,
    getByName := fun n => if n = "Alice" then some exAlice else none,
    list := fun _ _ => ([exAlice], 2),
    update := fun u => u,
    delete := fun i => i == 1 }

end UserSpec

namespace UserSpec

/-! ## Claims C6, C7, C8, C9, C10 -/

/-- C6: for every create request whose name has trimmed length strictly
less than 3 or strictly greater than 50, `사용자_생성` raises a
`ValueError` and no repository operation is invoked (the call trace is
empty: neither the get-by-name lookup nor the create occurs). -/
theorem create_user_invalid_length (repo : IUserRepository)
    (dto : UserCreateDTO)
    (h : (pyStrip dto.name).length < 3 ∨ 50 < (pyStrip dto.name).length) :
    (∃ e, (create_user repo dto).1 = .error e) ∧
    (create_user repo dto).2 = [] := by
  have hv : ∃ e, validate_name_length dto.name = some e := by
    rcases h with h | h
    · exact ⟨.nameTooShort, by simp [validate_name_length, MIN_NAME_LENGTH, h]⟩
    · refine ⟨.nameTooLong, ?_⟩
      have h2 : ¬ (pyStrip dto.name).length < MIN_NAME_LENGTH := by
        simp only [MIN_NAME_LENGTH]; omega
      simp [validate_name_length, MAX_NAME_LENGTH, h, h2]
  obtain ⟨e, he⟩ := hv
  exact ⟨⟨e, by simp [create_user, he]⟩, by simp [create_user, he]⟩

/-- Witness for C6 at the concrete dto {name := "ab"}. -/
theorem create_user_invalid_length_witness :
    (∃ e, (create_user exRepo ⟨"ab", "a@b.com"⟩).1 = .error e) ∧
    (create_user exRepo ⟨"ab", "a@b.com"⟩).2 = [] :=
  create_user_invalid_length exRepo ⟨"ab", "a@b.com"⟩ (Or.inl (by decide))

/-- C7: `사용자_목록_조회` raises a `ValueError` exactly when `page < 1`
or `page_size` lies outside `[1, 100]`, and on every such failure the
repository's paginated list operation is never invoked (empty trace). -/
theorem list_users_validation (repo : IUserRepository)
    (page page_size : Int) :
    ((∃ e, (list_users repo page page_size).1 = .error e) ↔
        (page < 1 ∨ page_size < 1 ∨ 100 < page_size)) ∧
    ((page < 1 ∨ page_size < 1 ∨ 100 < page_size) →
        (list_users repo page page_size).2 = []) := by
  by_cases h1 : page < 1
  · constructor
    · simp only [list_users, if_pos h1]
      exact ⟨fun _ => Or.inl h1, fun _ => ⟨_, rfl⟩⟩
    · intro _; simp [list_users, h1]
  · by_cases h2 : 1 ≤ page_size ∧ page_size ≤ 100
    · have hn : ¬ (1 ≤ page_size ∧ page_size ≤ 100) → False := fun k => k h2
      constructor
      · simp only [list_users, if_neg h1, if_neg (not_not_intro h2)]
        constructor
        · rintro ⟨e, he⟩; exact absurd he (by simp)
        · intro h; omega
      · intro h; omega
    · constructor
      · simp only [list_users, if_neg h1, if_pos h2]
        exact ⟨fun _ => by omega, fun _ => ⟨_, rfl⟩⟩
      · intro _; simp [list_users, h1, h2]

/-- Witness for C7 at page 0 (rejected) and page 1 (accepted). -/
theorem list_users_validation_witness :
    (∃ e, (list_users exRepo 0 20).1 = .error e) ∧
    (list_users exRepo 0 20).2 = [] ∧
    ¬ (∃ e, (list_users exRepo 1 20).1 = .error e) :=
  ⟨(list_users_validation exRepo 0 20).1.mpr (Or.inl (by decide)),
   (list_users_validation exRepo 0 20).2 (Or.inl (by decide)),
   fun h => by
     have := (list_users_validation exRepo 1 20).1.mp h
     omega⟩

/-- C8: for an id the repository does not hold, `사용자_조회` raises the
not-found `ValueError` and `사용자_삭제` raises the same error with the
repository delete never invoked (trace is just the lookup); for a held
id, `사용자_조회` returns the record and `사용자_삭제` returns the
boolean produced by the repository's hard delete. -/
theorem get_delete_not_found (repo : IUserRepository) (user_id : Int) :
    (repo.getById user_id = none →
       (get_user repo user_id).1 = .error (.userNotFound user_id) ∧
       delete_user repo user_id =
         (.error (.userNotFound user_id), [.getById user_id])) ∧
    (∀ u, repo.getById user_id = some u →
       (get_user repo user_id).1 = .ok u ∧
       (delete_user repo user_id).1 = .ok (repo.delete user_id)) := by
  constructor
  · intro h
    constructor
    · simp [get_user, h]
    · simp [delete_user, get_user, h]
  · intro u h
    constructor
    · simp [get_user, h]
    · simp [delete_user, get_user, h]

/-- Witness for C8 at the missing id 5 and the stored id 1. -/
theorem get_delete_not_found_witness :
    ((get_user exRepo 5).1 = .error (.userNotFound 5) ∧
     delete_user exRepo 5 = (.error (.userNotFound 5), [.getById 5])) ∧
    ((get_user exRepo 1).1 = .ok exAlice ∧
     (delete_user exRepo 1).1 = .ok (exRepo.delete 1)) :=
  ⟨(get_delete_not_found exRepo 5).1 rfl,
   (get_delete_not_found exRepo 1).2 exAlice rfl⟩

/-- C9: for every create request whose email does not match the pattern
`^[a-zA-Z0-9._%+-]+@[a-zA-Z0-9.-]+\.[a-zA-Z]{2,}$`, `사용자_생성`
raises a `ValueError` and no repository operation occurs (empty trace);
when the name passes its length validation, the raised error is the
malformed-email one. -/
theorem create_user_invalid_email (repo : IUserRepository)
    (dto : UserCreateDTO) (h : reMatchEmail dto.email = false) :
    (∃ e, (create_user repo dto).1 = .error e) ∧
    (create_user repo dto).2 = [] ∧
    (validate_name_length dto.name = none →
       (create_user repo dto).1 = .error (.invalidEmail dto.email)) := by
  have hv : validate_email_format dto.email = some (.invalidEmail dto.email) := by
    simp [validate_email_format, h]
  cases hn : validate_name_length dto.name with
  | some e =>
    exact ⟨⟨e, by simp [create_user, hn]⟩, by simp [create_user, hn],
           fun hc => absurd hc (by simp)⟩
  | none =>
    exact ⟨⟨.invalidEmail dto.email, by simp [create_user, hn, hv]⟩,
           by simp [create_user, hn, hv],
           fun _ => by simp [create_user, hn, hv]⟩

/-- Witness for C9 at the concrete email "notanemail". -/
theorem create_user_invalid_email_witness :
    (∃ e, (create_user exRepo ⟨"Carol", "notanemail"⟩).1 = .error e) ∧
    (create_user exRepo ⟨"Carol", "notanemail"⟩).2 = [] ∧
    (validate_name_length "Carol" = none →
       (create_user exRepo ⟨"Carol", "notanemail"⟩).1 =
         .error (.invalidEmail "notanemail")) :=
  create_user_invalid_email exRepo ⟨"Carol", "notanemail"⟩ (by decide)

/-- C10: every user entity the create path passes to the repository
create carries `활성화 = True`. -/
theorem create_user_active (repo : IUserRepository) (dto : UserCreateDTO)
    (u : User) (h : RepoCall.create u ∈ (create_user repo dto).2) :
    u.active = true := by
  unfold create_user validate_name_unique at h
  cases hn : validate_name_length dto.name with
  | some e => rw [hn] at h; simp at h
  | none =>
    rw [hn] at h
    cases he : validate_email_format dto.email with
    | some e => rw [he] at h; simp at h
    | none =>
      rw [he] at h
      cases hb : repo.getByName dto.name with
      | some w => rw [hb] at h; simp at h
      | none =>
        rw [hb] at h
        simp at h
        rw [h]

/-- Witness for C10: the entity created for a fresh request is active. -/
theorem create_user_active_witness :
    ({ id := none, name := "Carol", email := "c@d.org", active := true,
       created_at := none } : User).active = true :=
  create_user_active exRepo ⟨"Carol", "c@d.org"⟩ _ (by decide)

/-! ## Claims C2 and C5 -/

/-- C2: for a create request with trimmed name length in [3,50], an
email matching the pattern, and no repository record under the request's
name, `사용자_생성` succeeds: the full run consults the repository by
name and then persists an entity carrying exactly the trimmed name, the
lowercased email, and the active flag. -/
theorem create_user_success (repo : IUserRepository) (dto : UserCreateDTO)
    (hlen : 3 ≤ (pyStrip dto.name).length ∧ (pyStrip dto.name).length ≤ 50)
    (hemail : reMatchEmail dto.email = true)
    (hdup : repo.getByName dto.name = none) :
    create_user repo dto =
      (.ok (repo.create { id := none, name := pyStrip dto.name,
                          email := pyLower dto.email, active := true,
                          created_at := none }),
       [.getByName dto.name,
        .create { id := none, name := pyStrip dto.name,
                  email := pyLower dto.email, active := true,
                  created_at := none }]) := by
  have h1 : ¬ (pyStrip dto.name).length < MIN_NAME_LENGTH := by
    simp only [MIN_NAME_LENGTH]; omega
  have h2 : ¬ (pyStrip dto.name).length > MAX_NAME_LENGTH := by
    simp only [MAX_NAME_LENGTH]; omega
  have hn : validate_name_length dto.name = none := by
    simp [validate_name_length, h1, h2]
  have he : validate_email_format dto.email = none := by
    simp [validate_email_format, hemail]
  simp [create_user, validate_name_unique, hn, he, hdup]

/-- Witness for C2 at the concrete request {name := "  Carol  ",
email := "C@D.org"}: the persisted entity is normalized. -/
theorem create_user_success_witness :
    create_user exRepo ⟨"  Carol  ", "C@D.org"⟩ =
      (.ok (exRepo.create { id := none, name := pyStrip "  Carol  ",
                            email := pyLower "C@D.org", active := true,
                            created_at := none }),
       [.getByName "  Carol  ",
        .create { id := none, name := pyStrip "  Carol  ",
                  email := pyLower "C@D.org", active := true,
                  created_at := none }]) :=
  create_user_success exRepo ⟨"  Carol  ", "C@D.org"⟩
    ⟨by decide, by decide⟩ (by decide) rfl

/-- Python floor division `(total + ps - 1) // ps` is the ceiling of
`total / ps` for `ps > 0` and `total ≥ 0`. -/
theorem pages_formula_eq_ceil (total ps : Int) (hps : 0 < ps) :
    (total + ps - 1).fdiv ps = ⌈(total : ℚ) / (ps : ℚ)⌉ := by
  have hd := Int.ediv_add_emod (total + ps - 1) ps
  have hr0 : 0 ≤ (total + ps - 1) % ps := Int.emod_nonneg _ (ne_of_gt hps)
  have hr1 : (total + ps - 1) % ps < ps := Int.emod_lt_of_pos _ hps
  have h1 : total ≤ (total + ps - 1) / ps * ps := by linarith
  have h2 : ((total + ps - 1) / ps - 1) * ps < total := by linarith
  rw [Int.fdiv_eq_ediv _ (le_of_lt hps)]
  symm
  rw [Int.ceil_eq_iff]
  have hps' : (0 : ℚ) < (ps : ℚ) := by exact_mod_cast hps
  constructor
  · rw [lt_div_iff₀ hps']
    exact_mod_cast h2
  · rw [div_le_iff₀ hps']
    exact_mod_cast h1

/-- C5: for a valid list query (page ≥ 1, 1 ≤ page_size ≤ 100) and a
repository listing with nonnegative total, `사용자_목록_조회` returns
an envelope echoing total, page and page_size, whose items are the
repository's records converted by `UserResponse.from_entity`, and whose
pages field is `⌈total / page_size⌉`. -/
theorem list_users_pages (repo : IUserRepository) (page page_size : Int)
    (hp : 1 ≤ page) (hps : 1 ≤ page_size ∧ page_size ≤ 100)
    (htot : 0 ≤ (repo.list page page_size).2) :
    ∃ r, list_users repo page page_size = (.ok r, [.list page page_size]) ∧
      r.items = (repo.list page page_size).1.map UserResponse.from_entity ∧
      r.total = (repo.list page page_size).2 ∧
      r.page = page ∧ r.page_size = page_size ∧
      r.pages = ⌈((repo.list page page_size).2 : ℚ) / (page_size : ℚ)⌉ := by
  have h1 : ¬ page < 1 := by omega
  refine ⟨{ items := (repo.list page page_size).1.map UserResponse.from_entity,
            total := (repo.list page page_size).2, page := page,
            page_size := page_size,
            pages := ((repo.list page page_size).2 + page_size - 1).fdiv
                       page_size },
          ?_, rfl, rfl, rfl, rfl, ?_⟩
  · simp only [list_users, if_neg h1, if_neg (not_not_intro hps)]
  · exact pages_formula_eq_ceil _ page_size (by omega)

/-- Witness for C5 at page 1, page_size 20 against a repository holding
2 records in total: pages = ⌈2/20⌉ = 1. -/
theorem list_users_pages_witness :
    (∃ r, list_users exRepo 1 20 = (.ok r, [.list 1 20]) ∧
      r.items = (exRepo.list 1 20).1.map UserResponse.from_entity ∧
      r.total = (exRepo.list 1 20).2 ∧
      r.page = 1 ∧ r.page_size = 20 ∧
      r.pages = ⌈((exRepo.list 1 20).2 : ℚ) / ((20 : Int) : ℚ)⌉) ∧
    (list_users exRepo 1 20).1 =
      .ok { items := [UserResponse.from_entity exAlice], total := 2,
            page := 1, page_size := 20, pages := 1 } :=
  ⟨list_users_pages exRepo 1 20 (by decide) ⟨by decide, by decide⟩
     (by decide), rfl⟩

/-! ## Claim C1 -/

/-- Counterexample to C1 as stated: with "Alice" stored, the create
request name "  Alice  " trims to "Alice", the name of the existing
record (which get-by-name returns), yet creation succeeds and the
repository create IS invoked: the uniqueness lookup uses the raw request
name, which matches no record, and the trimmed name is persisted. -/
theorem create_user_trimmed_duplicate_cx :
    pyStrip "  Alice  " = exAlice.name ∧
    exRepo.getByName (pyStrip "  Alice  ") = some exAlice ∧
    (create_user exRepo ⟨"  Alice  ", "a@b.com"⟩).1 =
      .ok { id := some 2, name := "Alice", email := "a@b.com",
            active := true, created_at := none } ∧
    (create_user exRepo ⟨"  Alice  ", "a@b.com"⟩).2 =
      [.getByName "  Alice  ",
       .create { id := none, name := "Alice", email := "a@b.com",
                 active := true, created_at := none }] :=
  ⟨rfl, rfl, rfl, rfl⟩

/-- C1 (amended): for a create request passing the length and email
validations, if the repository's get-by-name returns a record for the
raw (exactly as supplied, untrimmed) request name then `사용자_생성`
raises the duplicate-name `ValueError` and the repository create is
never invoked; if get-by-name returns none for the raw name, creation
succeeds. -/
theorem create_user_duplicate_amended (repo : IUserRepository)
    (dto : UserCreateDTO)
    (hlen : validate_name_length dto.name = none)
    (hemail : validate_email_format dto.email = none) :
    (∀ u, repo.getByName dto.name = some u →
       (create_user repo dto).1 = .error (.duplicateName dto.name) ∧
       ∀ v, RepoCall.create v ∉ (create_user repo dto).2) ∧
    (repo.getByName dto.name = none →
       ∃ u, (create_user repo dto).1 = .ok u) := by
  constructor
  · intro u h
    constructor
    · simp [create_user, validate_name_unique, hlen, hemail, h]
    · intro v
      simp [create_user, validate_name_unique, hlen, hemail, h]
  · intro h
    exact ⟨repo.create { id := none, name := pyStrip dto.name,
                         email := pyLower dto.email, active := true,
                         created_at := none },
           by simp [create_user, validate_name_unique, hlen, hemail, h]⟩

/-- Witness for the amended C1 at the request {name := "Alice"}, a name
the repository holds exactly. -/
theorem create_user_duplicate_amended_witness :
    (∀ u, exRepo.getByName "Alice" = some u →
       (create_user exRepo ⟨"Alice", "x@y.com"⟩).1 =
         .error (.duplicateName "Alice") ∧
       ∀ v, RepoCall.create v ∉
         (create_user exRepo ⟨"Alice", "x@y.com"⟩).2) ∧
    (exRepo.getByName "Alice" = none →
       ∃ u, (create_user exRepo ⟨"Alice", "x@y.com"⟩).1 = .ok u) :=
  create_user_duplicate_amended exRepo ⟨"Alice", "x@y.com"⟩
    (by decide) (by decide)

/-! ## Claims C3 and C4

Helper lemmas inverting the two phases of `사용자_수정`. -/

/-- Inversion of a successful name phase: the email is untouched, the
phase never calls the repository update, and a truthy supplied name was
length-validated and applied stripped. -/
theorem update_name_step_ok (repo : IUserRepository) (user : User)
    (dn : Option String) (u1 : User) (t : List RepoCall)
    (h : update_name_step repo user dn = (.ok u1, t)) :
    u1.email = user.email ∧ (∀ v, RepoCall.update v ∉ t) ∧
    ∀ n, dn = some n → n ≠ "" →
      u1.name = pyStrip n ∧ validate_name_length n = none := by
  unfold update_name_step at h
  cases dn with
  | none =>
    simp only [truthyOptStr, if_neg] at h
    obtain ⟨h1, h2⟩ := Prod.mk.injEq .. ▸ h
    obtain rfl := (Except.ok.injEq .. ▸ h1)
    subst h2
    simp
  | some n =>
    by_cases hne : n = ""
    · subst hne
      simp only [truthyOptStr] at h
      simp at h
      obtain ⟨rfl, rfl⟩ := h
      simp
    · have ht : truthyOptStr (some n) = true := by simp [truthyOptStr, hne]
      rw [ht] at h
      simp only [if_true, Option.getD_some] at h
      cases hv : validate_name_length n with
      | some e => rw [hv] at h; simp at h
      | none =>
        rw [hv] at h
        by_cases heq : n = user.name
        · rw [if_neg (by simp [heq])] at h
          simp at h
          obtain ⟨rfl, rfl⟩ := h
          refine ⟨rfl, by simp, ?_⟩
          rintro n' hn' -
          obtain rfl : n = n' := by injection hn'
          exact ⟨rfl, hv⟩
        · rw [if_pos (by simp [heq])] at h
          unfold validate_name_unique at h
          cases hb : repo.getByName n with
          | some w => rw [hb] at h; simp at h
          | none =>
            rw [hb] at h
            simp at h
            obtain ⟨rfl, rfl⟩ := h
            refine ⟨rfl, by simp, ?_⟩
            rintro n' hn' -
            obtain rfl : n = n' := by injection hn'
            exact ⟨rfl, hv⟩

/-- Inversion of a successful email phase: the name is untouched and a
truthy supplied email was format-validated and applied lowercased. -/
theorem update_email_step_ok (user : User) (dm : Option String)
    (u2 : User) (h : update_email_step user dm = .ok u2) :
    u2.name = user.name ∧
    ∀ m, dm = some m → m ≠ "" →
      u2.email = pyLower m ∧ validate_email_format m = none := by
  unfold update_email_step at h
  cases dm with
  | none =>
    simp only [truthyOptStr, if_neg] at h
    obtain rfl := (Except.ok.injEq .. ▸ h)
    simp
  | some m =>
    by_cases hme : m = ""
    · subst hme
      simp only [truthyOptStr] at h
      simp at h
      subst h
      simp
    · have ht : truthyOptStr (some m) = true := by simp [truthyOptStr, hme]
      rw [ht] at h
      simp only [if_true, Option.getD_some] at h
      cases hv : validate_email_format m with
      | some e => rw [hv] at h; simp at h
      | none =>
        rw [hv] at h
        simp at h
        subst h
        refine ⟨rfl, ?_⟩
        rintro m' hm' -
        obtain rfl : m = m' := by injection hm'
        exact ⟨rfl, hv⟩

/-- An email phase whose truthy input (if any) passes the format
validation succeeds. -/
theorem update_email_step_valid_ok (user : User) (dm : Option String)
    (hv : ∀ m, dm = some m → m ≠ "" → validate_email_format m = none) :
    ∃ u2, update_email_step user dm = .ok u2 := by
  unfold update_email_step
  cases dm with
  | none => exact ⟨user, by simp [truthyOptStr]⟩
  | some m =>
    by_cases hme : m = ""
    · subst hme
      exact ⟨user, by simp [truthyOptStr]⟩
    · have ht : truthyOptStr (some m) = true := by simp [truthyOptStr, hme]
      rw [ht]
      simp only [if_true, Option.getD_some, hv m rfl hme]
      exact ⟨_, rfl⟩

/-- Counterexample to C3 as stated: the update request supplies the
name field with the value "", which fails the length validation (it is
shorter than 3), yet `사용자_수정` neither re-validates nor applies it:
the run succeeds and persists the record with its old name — the
supplied field is silently skipped because `""` is falsy in Python. -/
theorem update_user_empty_name_cx :
    (update_user exRepo 1 ⟨some "", none⟩).1 = .ok exAlice ∧
    (update_user exRepo 1 ⟨some "", none⟩).2 =
      [.getById 1, .update exAlice] ∧
    validate_name_length "" = some .nameTooShort :=
  ⟨rfl, rfl, rfl⟩

/-- C3 (amended): in an update of an existing record, each field
supplied with a truthy (non-`None`, non-empty) value is re-validated —
a truthy name failing the length validation aborts the run before any
persist — and every successful run persists an entity carrying the
stripped supplied name and the lowercased supplied email, each of which
passed its validation; a field supplied as the empty string is skipped
like an omitted one. -/
theorem update_user_applies_amended (repo : IUserRepository)
    (user_id : Int) (dto : UserUpdateDTO) (user : User)
    (h : repo.getById user_id = some user) :
    (∀ n e, dto.name = some n → n ≠ "" → validate_name_length n = some e →
       update_user repo user_id dto = (.error e, [.getById user_id])) ∧
    (∀ uR, (update_user repo user_id dto).1 = .ok uR →
       ∃ v, RepoCall.update v ∈ (update_user repo user_id dto).2 ∧
         uR = repo.update v ∧
         (∀ n, dto.name = some n → n ≠ "" →
            v.name = pyStrip n ∧ validate_name_length n = none) ∧
         (∀ m, dto.email = some m → m ≠ "" →
            v.email = pyLower m ∧ validate_email_format m = none)) := by
  have hg : get_user repo user_id = (.ok user, [.getById user_id]) := by
    simp [get_user, h]
  constructor
  · intro n e hn hne hval
    have ht : truthyOptStr (some n) = true := by simp [truthyOptStr, hne]
    simp [update_user, hg, hn, update_name_step, ht, hval]
  · intro uR hok
    rcases hns : update_name_step repo user dto.name with ⟨r1, t1⟩
    cases r1 with
    | error e => simp [update_user, hg, hns] at hok
    | ok u1 =>
      cases hes : update_email_step u1 dto.email with
      | error e => simp [update_user, hg, hns, hes] at hok
      | ok u2 =>
        obtain ⟨hemail1, hupd1, hname1⟩ :=
          update_name_step_ok repo user dto.name u1 t1 hns
        obtain ⟨hname2, hemail2⟩ :=
          update_email_step_ok u1 dto.email u2 hes
        simp only [update_user, hg, hns, hes] at hok ⊢
        refine ⟨u2, by simp, (Except.ok.inj hok).symm, ?_, hemail2⟩
        intro n hn hne
        obtain ⟨ha, hb⟩ := hname1 n hn hne
        exact ⟨hname2.trans ha, hb⟩

/-- Witness for the amended C3: updating the stored record with a fresh
name and a mixed-case email persists normalized values. -/
theorem update_user_applies_amended_witness :
    (∀ n e, (some "Bobby" : Option String) = some n → n ≠ "" →
       validate_name_length n = some e →
       update_user exRepo 1 ⟨some "Bobby", some "New@Mail.org"⟩ =
         (.error e, [.getById 1])) ∧
    (∀ uR, (update_user exRepo 1 ⟨some "Bobby", some "New@Mail.org"⟩).1 =
        .ok uR →
       ∃ v, RepoCall.update v ∈
           (update_user exRepo 1 ⟨some "Bobby", some "New@Mail.org"⟩).2 ∧
         uR = exRepo.update v ∧
         (∀ n, (some "Bobby" : Option String) = some n → n ≠ "" →
            v.name = pyStrip n ∧ validate_name_length n = none) ∧
         (∀ m, (some "New@Mail.org" : Option String) = some m → m ≠ "" →
            v.email = pyLower m ∧ validate_email_format m = none)) :=
  update_user_applies_amended exRepo 1 ⟨some "Bobby", some "New@Mail.org"⟩
    exAlice rfl

/-- Counterexample to C4 as stated: the update request supplies the
name "ab", which differs from the stored record's current name "Alice"
(so per the claim the uniqueness check must be performed), yet the run
raises the too-short `ValueError` first and the repository's
get-by-name is never consulted (the trace holds only the fetch). -/
theorem update_user_unique_iff_cx :
    exRepo.getById 1 = some exAlice ∧
    "ab" ≠ exAlice.name ∧
    (update_user exRepo 1 ⟨some "ab", none⟩).1 = .error .nameTooShort ∧
    (update_user exRepo 1 ⟨some "ab", none⟩).2 = [.getById 1] :=
  ⟨rfl, by decide, rfl, rfl⟩

/-- C4 (amended): in an update of an existing record whose supplied
name is truthy and passes the length validation, the repository
get-by-name is consulted exactly when the supplied name differs (as an
exact string) from the record's current name; when it differs and the
repository holds a record under it, the run raises the duplicate-name
`ValueError` and never persists; updating to the record's current name
proceeds without the uniqueness lookup and succeeds whenever the
supplied email (if truthy) is valid. -/
theorem update_user_unique_check_amended (repo : IUserRepository)
    (user_id : Int) (dto : UserUpdateDTO) (user : User) (n : String)
    (h : repo.getById user_id = some user) (hn : dto.name = some n)
    (hne : n ≠ "") (hval : validate_name_length n = none) :
    (RepoCall.getByName n ∈ (update_user repo user_id dto).2 ↔
       n ≠ user.name) ∧
    (∀ w, n ≠ user.name → repo.getByName n = some w →
       (update_user repo user_id dto).1 = .error (.duplicateName n) ∧
       ∀ v, RepoCall.update v ∉ (update_user repo user_id dto).2) ∧
    (n = user.name →
       (∀ m, dto.email = some m → m ≠ "" →
          validate_email_format m = none) →
       ∃ u2, (update_user repo user_id dto).1 = .ok u2) := by
  have hg : get_user repo user_id = (.ok user, [.getById user_id]) := by
    simp [get_user, h]
  have ht : truthyOptStr (some n) = true := by simp [truthyOptStr, hne]
  by_cases heq : n = user.name
  · subst heq
    have hns : update_name_step repo user dto.name =
        (.ok { user with name := pyStrip user.name }, []) := by
      rw [hn]
      unfold update_name_step
      rw [ht]
      simp only [if_true, Option.getD_some, hval]
      rw [if_neg (by simp)]
    refine ⟨?_, ?_, ?_⟩
    · cases hes : update_email_step { user with name := pyStrip user.name }
          dto.email with
      | error e => simp [update_user, hg, hns, hes]
      | ok u2 => simp [update_user, hg, hns, hes]
    · intro w hcontra _
      exact absurd rfl hcontra
    · intro _ hvm
      obtain ⟨u2, hes⟩ :=
        update_email_step_valid_ok { user with name := pyStrip user.name }
          dto.email hvm
      exact ⟨repo.update u2, by simp [update_user, hg, hns, hes]⟩
  · cases hb : repo.getByName n with
    | some w =>
      have hns : update_name_step repo user dto.name =
          (.error (.duplicateName n), [.getByName n]) := by
        rw [hn]
        unfold update_name_step
        rw [ht]
        simp only [if_true, Option.getD_some, hval]
        rw [if_pos (by simp [heq])]
        unfold validate_name_unique
        rw [hb]
      refine ⟨?_, ?_, ?_⟩
      · simp [update_user, hg, hns, heq]
      · intro w' _ _
        constructor
        · simp [update_user, hg, hns]
        · intro v
          simp [update_user, hg, hns]
      · intro hcontra _
        exact absurd hcontra heq
    | none =>
      have hns : update_name_step repo user dto.name =
          (.ok { user with name := pyStrip n }, [.getByName n]) := by
        rw [hn]
        unfold update_name_step
        rw [ht]
        simp only [if_true, Option.getD_some, hval]
        rw [if_pos (by simp [heq])]
        unfold validate_name_unique
        rw [hb]
      refine ⟨?_, ?_, ?_⟩
      · cases hes : update_email_step { user with name := pyStrip n }
            dto.email with
        | error e => simp [update_user, hg, hns, hes, heq]
        | ok u2 => simp [update_user, hg, hns, hes, heq]
      · intro w' _ hb'
        exact absurd hb' (by simp)
      · intro hcontra _
        exact absurd hcontra heq

/-- Witness for the amended C4: updating the stored "Alice" record to
the fresh name "Bobby" consults get-by-name, finds nothing, and the run
succeeds; the lookup membership matches "Bobby" ≠ "Alice". -/
theorem update_user_unique_check_amended_witness :
    (RepoCall.getByName "Bobby" ∈
        (update_user exRepo 1 ⟨some "Bobby", none⟩).2 ↔
       "Bobby" ≠ exAlice.name) ∧
    (∀ w, "Bobby" ≠ exAlice.name → exRepo.getByName "Bobby" = some w →
       (update_user exRepo 1 ⟨some "Bobby", none⟩).1 =
         .error (.duplicateName "Bobby") ∧
       ∀ v, RepoCall.update v ∉
         (update_user exRepo 1 ⟨some "Bobby", none⟩).2) ∧
    ("Bobby" = exAlice.name →
       (∀ m, (none : Option String) = some m → m ≠ "" →
          validate_email_format m = none) →
       ∃ u2, (update_user exRepo 1 ⟨some "Bobby", none⟩).1 = .ok u2) :=
  update_user_unique_check_amended exRepo 1 ⟨some "Bobby", none⟩ exAlice
    "Bobby" rfl rfl (by decide) (by decide)

end UserSpec
